import Mathlib

/-!
Shallow embedding of the client-side persistence and state-synchronization
layer of the APP-CALCULO-GASTOS expense tracker (src/context/ExpenseContext.tsx,
src/context/AuthContext.tsx, src/pages/admin/UserManagement.tsx).

Records are modelled field-for-field after the TypeScript objects built in
src/pages/sales/AddExpense.tsx and src/context/AuthContext.tsx.  The numeric
`createdAt` field holds the epoch-millisecond value of the ISO creation
timestamp, which is exactly the quantity the source compares
(`new Date(x.createdAt).getTime()`).  JSON amounts are modelled as `Int`;
no claim performs arithmetic on them.  LocalStorage is modelled as the
optional previously persisted snapshot plus a `fits` predicate saying
whether `setItem` succeeds for a given snapshot (quota).
-/

namespace TrackExpense

/-- Expense status enumeration from the app types (SUBMITTED / APPROVED / REJECTED). -/
inductive ExpenseStatus
  | submitted
  | approved
  | rejected
deriving DecidableEq

/-- Expense category enumeration from the app types. -/
inductive Category
  | restaurant
  | hotel
  | transport
  | supplies
  | mileage
  | fuel
  | parking
  | miscellaneous
deriving DecidableEq

/-- Expense record, mirroring the object literal built in AddExpense.tsx
(id, userId, userName, merchant, date, subtotal, tax, total, category,
imageUrl, status, notes, createdAt). -/
structure Expense where
  id : String
  userId : String
  userName : String
  merchant : String
  date : String
  subtotal : Int
  tax : Int
  total : Int
  category : Category
  imageUrl : String
  status : ExpenseStatus
  notes : String
  createdAt : Nat
deriving DecidableEq

/-- User role enumeration (SALES / MANAGER / ADMIN). -/
inductive UserRole
  | sales
  | manager
  | admin
deriving DecidableEq

/-- The pending profile-update sub-record installed by requestProfileUpdate. -/
structure PendingUpdate where
  name : String
  email : String
  date : String
deriving DecidableEq

/-- User account record from AuthContext.tsx. -/
structure User where
  id : String
  name : String
  email : String
  password : String
  role : UserRole
  avatar : String
  pendingUpdates : Option PendingUpdate
deriving DecidableEq

/-! ## Expense repository, local-mode operations (src/context/ExpenseContext.tsx) -/

/-- Per-record body of updateStatus (ExpenseContext.tsx lines 101-108):
`exp.id === id ? { ...exp, status, notes: notes ? notes : exp.notes } : exp`.
JavaScript truthiness makes both an absent argument and the empty string
keep the existing note. -/
def updateStatusOne (id : String) (status : ExpenseStatus) (notes : Option String)
    (exp : Expense) : Expense :=
  if exp.id == id then
    { exp with
      status := status
      notes := match notes with
               | some n => if n == "" then exp.notes else n
               | none => exp.notes }
  else exp

/-- updateStatus, local branch (ExpenseContext.tsx lines 101-108): map over the
in-memory collection. -/
def updateStatus (id : String) (status : ExpenseStatus) (notes : Option String)
    (expenses : List Expense) : List Expense :=
  expenses.map (updateStatusOne id status notes)

/-- A `Partial<Expense>` patch: every field optional, absent fields are not
spread over the record. -/
structure ExpensePatch where
  id : Option String := none
  userId : Option String := none
  userName : Option String := none
  merchant : Option String := none
  date : Option String := none
  subtotal : Option Int := none
  tax : Option Int := none
  total : Option Int := none
  category : Option Category := none
  imageUrl : Option String := none
  status : Option ExpenseStatus := none
  notes : Option String := none
  createdAt : Option Nat := none
deriving DecidableEq

/-- The object spread `{ ...exp, ...updatedExpense }` from editExpense
(ExpenseContext.tsx lines 145-150): a field present in the patch replaces the
record field, an absent field leaves it as it was. -/
def applyPatch (p : ExpensePatch) (e : Expense) : Expense :=
  { id := p.id.getD e.id
    userId := p.userId.getD e.userId
    userName := p.userName.getD e.userName
    merchant := p.merchant.getD e.merchant
    date := p.date.getD e.date
    subtotal := p.subtotal.getD e.subtotal
    tax := p.tax.getD e.tax
    total := p.total.getD e.total
    category := p.category.getD e.category
    imageUrl := p.imageUrl.getD e.imageUrl
    status := p.status.getD e.status
    notes := p.notes.getD e.notes
    createdAt := p.createdAt.getD e.createdAt }

/-- editExpense, local branch (ExpenseContext.tsx lines 144-151). -/
def editExpense (id : String) (p : ExpensePatch) (expenses : List Expense) :
    List Expense :=
  expenses.map (fun exp => if exp.id == id then applyPatch p exp else exp)

/-- addExpense, local branch (ExpenseContext.tsx line 90): prepend the new
record to the in-memory collection. -/
def addExpense (expense : Expense) (expenses : List Expense) : List Expense :=
  expense :: expenses

/-- A sequence of local-mode create calls, applied in call order. -/
def addAll (newExpenses : List Expense) (expenses : List Expense) : List Expense :=
  newExpenses.foldl (fun acc e => addExpense e acc) expenses

/-- getExpensesByUser (ExpenseContext.tsx lines 154-156): pure filter. -/
def getExpensesByUser (userId : String) (expenses : List Expense) : List Expense :=
  expenses.filter (fun e => e.userId == userId)

/-- deleteExpensesByUserId, local branch (ExpenseContext.tsx line 135). -/
def deleteExpensesByUserId (userId : String) (expenses : List Expense) : List Expense :=
  expenses.filter (fun exp => !(exp.userId == userId))

/-- Comparator of the cloud-mode subscription handler (ExpenseContext.tsx
line 59): `(a, b) => new Date(b.createdAt).getTime() - new Date(a.createdAt).getTime()`,
i.e. descending by creation time. -/
def cloudSortLe (a b : Expense) : Bool :=
  decide (b.createdAt ≤ a.createdAt)

/-- The cloud-mode onSnapshot handler re-sort of the delivered collection
(ExpenseContext.tsx lines 58-60), applied to every subscription update
regardless of delivery order. -/
def cloudSnapshotSort (delivered : List Expense) : List Expense :=
  delivered.mergeSort cloudSortLe

/-- Firestore document store for the expenses collection: (documentId, data). -/
abbrev ExpenseStore := List (String × Expense)

/-- deleteExpensesByUserId, cloud branch (ExpenseContext.tsx lines 123-133):
a query for `userId == uid` collects the matching documents, each is deleted in
one writeBatch, and a single `batch.commit()` applies all deletions atomically.
The whole batch is therefore one step on the store. -/
def deleteByOwnerBatch (userId : String) (store : ExpenseStore) : ExpenseStore :=
  store.filter (fun d => !(d.snd.userId == userId))

/-- Newest-creation-first order on the visible collection. -/
def SortedDesc (l : List Expense) : Prop :=
  l.Pairwise (fun a b => b.createdAt ≤ a.createdAt)

/-! ## Local persistence of the expense collection

LocalStorage under the key track_expense_data is modelled as the previously
persisted snapshot (`stored`, absent when the key was never written) together
with a predicate `fits` telling whether `setItem` succeeds for a given
snapshot (it throws a quota error otherwise). A save effect returns the
snapshot persisted after the effect ran. -/

/-- The stripped copy built by the fallback save: every record image field
replaced by the empty string (`imageUrl: ''`), all other fields kept. -/
def stripImages (expenses : List Expense) : List Expense :=
  expenses.map (fun e => { e with imageUrl := "" })

/-- Local save effect of the Firestore-capable provider (ExpenseContext.tsx
lines 69-77): one `setItem` attempt; on failure the error is logged
("Local storage full") and nothing else happens, so the previously persisted
snapshot remains. -/
def localSaveEffect (fits : List Expense → Bool) (stored : Option (List Expense))
    (expenses : List Expense) : Option (List Expense) :=
  if fits expenses then some expenses else stored

/-- Local save effect of the lightweight provider variant (the ExpenseProvider
embedded in src/pages/admin/UserManagement.tsx, lines 902-920): on failure of
the full save it retries exactly once with `imageUrl` stripped to the empty
string in every record; if that also fails, the failure is only logged. -/
def localSaveEffectRetry (fits : List Expense → Bool) (stored : Option (List Expense))
    (expenses : List Expense) : Option (List Expense) :=
  if fits expenses then some expenses
  else if fits (stripImages expenses) then some (stripImages expenses)
  else stored

/-! ## Loading a persisted local snapshot

`JSON.parse` is an external platform primitive; it is modelled by a parse
function argument returning `none` when parsing throws, and otherwise either
an array of records or some non-array JSON value. -/

/-- Outcome of a successful `JSON.parse` of a snapshot string, as far as the
loaders inspect it: an array (of records, used as-is) or any non-array value. -/
inductive ParsedSnapshot (α : Type)
  | arr (items : List α)
  | nonArray
deriving DecidableEq

/-- loadFromLocal of the expense repository (ExpenseContext.tsx lines 26-38):
absent key or parse exception falls back to the seed data, and a parsed value
that is not an array is also replaced by the seed via `Array.isArray`. -/
def expensesLoadFromLocal (parse : String → Option (ParsedSnapshot Expense))
    (seed : List Expense) (saved : Option String) : List Expense :=
  match saved with
  | none => seed
  | some s =>
    match parse s with
    | none => seed
    | some (ParsedSnapshot.arr items) => items
    | some ParsedSnapshot.nonArray => seed

/-- The user collection state right after initialization: either a list of
users, or the raw non-array value that `JSON.parse` produced (AuthContext.tsx
installs the parse result without an `Array.isArray` check). -/
inductive UsersState
  | list (users : List User)
  | nonArrayValue
deriving DecidableEq

/-- loadFromLocal of the user repository (AuthContext.tsx lines 63-75):
absent key or parse exception falls back to the seed data, but a successfully
parsed value is passed to `setAllUsers` unchecked — there is no
`Array.isArray` guard, so a non-array parse result becomes the collection. -/
def usersLoadFromLocal (parse : String → Option (ParsedSnapshot User))
    (seed : List User) (saved : Option String) : UsersState :=
  match saved with
  | none => UsersState.list seed
  | some s =>
    match parse s with
    | none => UsersState.list seed
    | some (ParsedSnapshot.arr items) => UsersState.list items
    | some ParsedSnapshot.nonArray => UsersState.nonArrayValue

/-! ## User repository (src/context/AuthContext.tsx) -/

/-- Uppercase-hex digit used by percent encoding. -/
def hexDigit (n : Nat) : Char :=
  if n < 10 then Char.ofNat (48 + n) else Char.ofNat (55 + n)

/-- Characters `encodeURIComponent` leaves unescaped:
alphanumerics and the characters dash, underscore, dot, bang, tilde, star, apostrophe and parentheses. -/
def isUriUnreserved (c : Char) : Bool :=
  c.isAlphanum || c == '-' || c == '_' || c == '.' || c == '!' ||
    c == '~' || c == '*' || c.toNat == 39 || c == '(' || c == ')'

/-- Percent encoding of one UTF-8 byte. -/
def percentEncodeByte (b : UInt8) : String :=
  "%" ++ String.singleton (hexDigit (b.toNat / 16)) ++
    String.singleton (hexDigit (b.toNat % 16))

/-- The JavaScript `encodeURIComponent` builtin: unreserved characters are
kept, every other character is replaced by the percent encoding of its
UTF-8 bytes. -/
def encodeURIComponent (s : String) : String :=
  String.join (s.toList.map (fun c =>
    if isUriUnreserved c then String.singleton c
    else String.join (((String.singleton c).toUTF8.toList).map percentEncodeByte)))

/-- The avatar URL generated at signup (AuthContext.tsx line 116), a pure
function of the chosen display name. -/
def avatarFor (name : String) : String :=
  "https://ui-avatars.com/api/?name=" ++ encodeURIComponent name ++
    "&background=random&color=fff&background=2563eb"

/-- The new account built by signup (AuthContext.tsx lines 110-117):
identifier derived from the current epoch milliseconds, Sales role, generated
avatar, no pending update. -/
def mkSignupUser (now : Nat) (name email password : String) : User :=
  { id := "u-" ++ toString now
    name := name
    email := email
    password := password
    role := UserRole.sales
    avatar := avatarFor name
    pendingUpdates := none }

/-- User-repository state: the account collection plus the authenticated
session user (AuthContext `allUsers` and `user`). -/
structure AuthState where
  allUsers : List User
  sessionUser : Option User
deriving DecidableEq

/-- signup, local branch (AuthContext.tsx lines 103-134): if some account
already has the email (case-insensitively) an alert is shown and the function
returns with no state change; otherwise the new account is appended and a
session is established for it. -/
def signup (now : Nat) (name email password : String) (st : AuthState) : AuthState :=
  if st.allUsers.any (fun u => u.email.toLower == email.toLower) then st
  else
    let newUser := mkSignupUser now name email password
    { allUsers := st.allUsers ++ [newUser], sessionUser := some newUser }

/-- requestProfileUpdate, local branch (AuthContext.tsx lines 166-178):
spreads `{ pendingUpdates: { name, email, date } }` over the matching user,
overwriting any pending sub-record already present. -/
def requestProfileUpdate (userId name email date : String) (users : List User) :
    List User :=
  users.map (fun u =>
    if u.id == userId then
      { u with pendingUpdates := some { name := name, email := email, date := date } }
    else u)

/-- The per-user body of the local branch of resolveProfileUpdate
(AuthContext.tsx lines 205-214) for a user whose id matched. On approval the
source reads `u.pendingUpdates!.name` / `.email` — a non-null assertion that
throws at run time when the sub-record is absent, modelled by `none`. -/
def resolveOne (approve : Bool) (u : User) : Option User :=
  if approve then
    match u.pendingUpdates with
    | some p => some { u with name := p.name, email := p.email, pendingUpdates := none }
    | none => none
  else
    some { u with pendingUpdates := none }

/-- A map that can throw: `none` as soon as the body throws for some element,
otherwise the mapped list. -/
def mapOrCrash (f : User → Option User) : List User → Option (List User)
  | [] => some []
  | u :: us =>
    match f u with
    | none => none
    | some v =>
      match mapOrCrash f us with
      | none => none
      | some vs => some (v :: vs)

/-- resolveProfileUpdate, Firestore-capable variant, local branch
(AuthContext.tsx lines 181-216): an early return when `find` produces no user
with that id or the found user has no pending sub-record; otherwise the
collection is mapped, resolving every user whose id matches. -/
def resolveProfileUpdate (userId : String) (approve : Bool) (users : List User) :
    Option (List User) :=
  match users.find? (fun u => u.id == userId) with
  | none => some users
  | some u0 =>
    match u0.pendingUpdates with
    | none => some users
    | some _ =>
      mapOrCrash (fun u => if u.id == userId then resolveOne approve u else some u) users

/-- resolveProfileUpdate, local-only variant (AuthContext.tsx lines 400-419):
the pending check happens per user inside the map
(`u.id === userId && u.pendingUpdates`), so no early return and no throw. -/
def resolveProfileUpdateLocalOnly (userId : String) (approve : Bool)
    (users : List User) : List User :=
  users.map (fun u =>
    if u.id == userId then
      match u.pendingUpdates with
      | some p =>
        if approve then { u with name := p.name, email := p.email, pendingUpdates := none }
        else { u with pendingUpdates := none }
      | none => u
    else u)

/-! ## Admin delete flow (src/pages/admin/UserManagement.tsx) -/

/-- deleteUser, local branch (AuthContext.tsx line 222): remove the account. -/
def deleteUserLocal (userId : String) (users : List User) : List User :=
  users.filter (fun u => !(u.id == userId))

/-- Combined application state visible to the admin delete flow. -/
structure AppState where
  users : List User
  expenses : List Expense
deriving DecidableEq

/-- State after the first statement of confirmDelete (UserManagement.tsx
line 30): the expense cascade has been issued, the account still exists. -/
def cascadeState (userId : String) (st : AppState) : AppState :=
  { st with expenses := deleteExpensesByUserId userId st.expenses }

/-- State after confirmDelete (UserManagement.tsx lines 28-35): expense
cascade first, then the user delete. -/
def confirmDelete (userId : String) (st : AppState) : AppState :=
  { cascadeState userId st with
    users := deleteUserLocal userId (cascadeState userId st).users }

/-- The observable states of the composite delete, in temporal order: before,
after the cascade, after the user delete. -/
def confirmDeleteTrace (userId : String) (st : AppState) : List AppState :=
  [st, cascadeState userId st, confirmDelete userId st]

/-! ## Specification-side predicates used by the frame claims -/

/-- Field-by-field behaviour of the spread `{ ...exp, ...updatedExpense }`:
an absent patch field leaves the record field unchanged, a present patch
field replaces it with the patch value. -/
def PatchSpec (p : ExpensePatch) (e e' : Expense) : Prop :=
  (p.id = none → e'.id = e.id) ∧ (p.id.isSome = true → some e'.id = p.id) ∧
  (p.userId = none → e'.userId = e.userId) ∧
    (p.userId.isSome = true → some e'.userId = p.userId) ∧
  (p.userName = none → e'.userName = e.userName) ∧
    (p.userName.isSome = true → some e'.userName = p.userName) ∧
  (p.merchant = none → e'.merchant = e.merchant) ∧
    (p.merchant.isSome = true → some e'.merchant = p.merchant) ∧
  (p.date = none → e'.date = e.date) ∧
    (p.date.isSome = true → some e'.date = p.date) ∧
  (p.subtotal = none → e'.subtotal = e.subtotal) ∧
    (p.subtotal.isSome = true → some e'.subtotal = p.subtotal) ∧
  (p.tax = none → e'.tax = e.tax) ∧
    (p.tax.isSome = true → some e'.tax = p.tax) ∧
  (p.total = none → e'.total = e.total) ∧
    (p.total.isSome = true → some e'.total = p.total) ∧
  (p.category = none → e'.category = e.category) ∧
    (p.category.isSome = true → some e'.category = p.category) ∧
  (p.imageUrl = none → e'.imageUrl = e.imageUrl) ∧
    (p.imageUrl.isSome = true → some e'.imageUrl = p.imageUrl) ∧
  (p.status = none → e'.status = e.status) ∧
    (p.status.isSome = true → some e'.status = p.status) ∧
  (p.notes = none → e'.notes = e.notes) ∧
    (p.notes.isSome = true → some e'.notes = p.notes) ∧
  (p.createdAt = none → e'.createdAt = e.createdAt) ∧
    (p.createdAt.isSome = true → some e'.createdAt = p.createdAt)

/-- Relation between a record before and after an edit call: a record whose
id does not match is byte-identical, the matching record is patched exactly on
the fields present in the patch. -/
def EditFrame (id : String) (p : ExpensePatch) (e e' : Expense) : Prop :=
  (e.id ≠ id → e' = e) ∧ (e.id = id → PatchSpec p e e')

/-- Frame of resolveProfileUpdate on one user: a user with a different id is
untouched, and the target user keeps id, password, role and avatar. -/
def ResolveFrame (userId : String) (u u' : User) : Prop :=
  (u.id ≠ userId → u' = u) ∧
    u'.id = u.id ∧ u'.password = u.password ∧ u'.role = u.role ∧ u'.avatar = u.avatar

/-! ## Concrete fixtures used by witnesses and counterexamples -/

/-- Concrete expense fixture. -/
def mkExp (id userId img : String) (created : Nat) : Expense :=
  { id := id, userId := userId, userName := "Alice", merchant := "Cafe",
    date := "2024-01-01", subtotal := 10, tax := 2, total := 12,
    category := Category.restaurant, imageUrl := img,
    status := ExpenseStatus.submitted, notes := "lunch", createdAt := created }

/-- Concrete user fixture. -/
def mkUsr (id name email : String) (pending : Option PendingUpdate) : User :=
  { id := id, name := name, email := email, password := "pw",
    role := UserRole.sales, avatar := "av", pendingUpdates := pending }

/-- A storage-quota model under which only image-free snapshots fit. -/
def fitsOnlyStripped : List Expense → Bool :=
  fun es => es.all (fun e => e.imageUrl == "")

/-- A parse function modelling `JSON.parse` succeeding with a non-array value
on every user snapshot string. -/
def parseNonArrayU : String → Option (ParsedSnapshot User) :=
  fun _ => some ParsedSnapshot.nonArray

/-- A parse function modelling `JSON.parse` throwing on every expense
snapshot string. -/
def parseFailE : String → Option (ParsedSnapshot Expense) :=
  fun _ => none

/-- Concrete user seed used by the load counterexample. -/
def seedUsers : List User :=
  [mkUsr "u1" "Alice" "alice@x.com" none]

/-- Concrete expense seed used by the load witness. -/
def seedExpenses : List Expense :=
  [mkExp "e1" "u1" "" 1]

/-! ## Helper lemmas -/

lemma some_getD_of_isSome {α : Type} (o : Option α) (d : α) (h : o.isSome = true) :
    some (o.getD d) = o := by
  cases o with
  | none => simp at h
  | some v => rfl

lemma patchSpec_applyPatch (p : ExpensePatch) (e : Expense) :
    PatchSpec p e (applyPatch p e) := by
  unfold PatchSpec applyPatch
  refine ⟨?_, ?_, ?_, ?_, ?_, ?_, ?_, ?_, ?_, ?_, ?_, ?_, ?_, ?_, ?_, ?_, ?_, ?_,
    ?_, ?_, ?_, ?_, ?_, ?_, ?_, ?_⟩ <;> intro h <;>
    first
      | exact some_getD_of_isSome _ _ h
      | simp [h]

/-! ## Claim theorems -/

/-- C5: for every expense collection, updateStatus with an absent or empty
notes argument sets the status of the matching record and leaves its existing
notes unchanged, while a non-empty notes argument sets the status and
overwrites the notes; non-matching records are untouched in all cases. -/
theorem c5_updateStatus_notes_semantics (l : List Expense) (id : String)
    (st : ExpenseStatus) (n : String) (hn : n ≠ "") :
    updateStatus id st none l
        = l.map (fun e => if e.id == id then { e with status := st } else e)
      ∧ updateStatus id st (some "") l
        = l.map (fun e => if e.id == id then { e with status := st } else e)
      ∧ updateStatus id st (some n) l
        = l.map (fun e => if e.id == id then { e with status := st, notes := n } else e) := by
  refine ⟨?_, ?_, ?_⟩ <;>
    · unfold updateStatus
      apply List.map_congr_left
      intro e _
      unfold updateStatusOne
      by_cases h : e.id == id <;> simp [h, hn]

/-- Witness for C5 at a concrete collection: rejecting with the note
"missing receipt" overwrites the note of record e1 only. -/
theorem c5_updateStatus_notes_semantics_witness :
    "missing receipt" ≠ ""
      ∧ updateStatus "e1" ExpenseStatus.rejected (some "missing receipt")
            [mkExp "e1" "u1" "" 1, mkExp "e2" "u1" "" 2]
          = [mkExp "e1" "u1" "" 1, mkExp "e2" "u1" "" 2].map
              (fun e => if e.id == "e1" then
                { e with status := ExpenseStatus.rejected, notes := "missing receipt" }
              else e) :=
  ⟨by decide,
   (c5_updateStatus_notes_semantics [mkExp "e1" "u1" "" 1, mkExp "e2" "u1" "" 2]
      "e1" ExpenseStatus.rejected "missing receipt" (by decide)).2.2⟩

/-- C6: editExpense replaces exactly the fields present in the partial
record on the matching expense, leaves every unmentioned field of that
expense byte-identical, leaves every other record byte-identical, and is a
no-op when no record carries the identifier. -/
theorem c6_editExpense_frame (id : String) (p : ExpensePatch) (l : List Expense) :
    ((∀ e ∈ l, e.id ≠ id) → editExpense id p l = l)
      ∧ List.Forall₂ (EditFrame id p) l (editExpense id p l) := by
  constructor
  · intro h
    unfold editExpense
    induction l with
    | nil => rfl
    | cons e es ih =>
      have he : ¬((e.id == id) = true) := by
        simpa using h e (List.mem_cons_self e es)
      rw [List.map_cons, if_neg he, ih (fun x hx => h x (List.mem_cons_of_mem e hx))]
  · induction l with
    | nil => exact List.Forall₂.nil
    | cons e es ih =>
      refine List.Forall₂.cons ?_ ih
      constructor
      · intro hne
        show (if e.id == id then applyPatch p e else e) = e
        rw [if_neg (by simpa using hne)]
      · intro heq
        show PatchSpec p e (if e.id == id then applyPatch p e else e)
        rw [if_pos (by simpa using heq)]
        exact patchSpec_applyPatch p e

/-- Witness for C6 at a concrete collection: patching only the total of e1
satisfies the no-op and frame conclusions. -/
theorem c6_editExpense_frame_witness :
    ((∀ e ∈ [mkExp "e1" "u1" "" 1], e.id ≠ "zz") →
        editExpense "zz" { total := some 50 } [mkExp "e1" "u1" "" 1]
          = [mkExp "e1" "u1" "" 1])
      ∧ List.Forall₂ (EditFrame "e1" { total := some 50 })
          [mkExp "e1" "u1" "" 1]
          (editExpense "e1" { total := some 50 } [mkExp "e1" "u1" "" 1]) :=
  ⟨(c6_editExpense_frame "zz" { total := some 50 } [mkExp "e1" "u1" "" 1]).1,
   (c6_editExpense_frame "e1" { total := some 50 } [mkExp "e1" "u1" "" 1]).2⟩

/-- C4: deleteExpensesByUserId removes exactly the expenses of the given
owner, both in the local in-memory collection and in the cloud store where
the removal is one batched step; every record of a different owner survives
in place (the result is a sublist of the original). -/
theorem c4_deleteByOwner_exact (uid : String) (l : List Expense)
    (store : ExpenseStore) :
    (∀ e ∈ deleteExpensesByUserId uid l, e.userId ≠ uid)
      ∧ (∀ e ∈ l, e.userId ≠ uid → e ∈ deleteExpensesByUserId uid l)
      ∧ List.Sublist (deleteExpensesByUserId uid l) l
      ∧ (∀ d ∈ deleteByOwnerBatch uid store, d.snd.userId ≠ uid)
      ∧ (∀ d ∈ store, d.snd.userId ≠ uid → d ∈ deleteByOwnerBatch uid store)
      ∧ List.Sublist (deleteByOwnerBatch uid store) store := by
  unfold deleteExpensesByUserId deleteByOwnerBatch
  refine ⟨?_, ?_, List.filter_sublist _, ?_, ?_, List.filter_sublist _⟩
  · intro e he
    have := (List.mem_filter.mp he).2
    simpa using this
  · intro e he hne
    exact List.mem_filter.mpr ⟨he, by simpa using hne⟩
  · intro d hd
    have := (List.mem_filter.mp hd).2
    simpa using this
  · intro d hd hne
    exact List.mem_filter.mpr ⟨hd, by simpa using hne⟩

/-- Witness for C4 at a concrete collection: deleting owner u1 keeps the u2
record and removes both u1 records. -/
theorem c4_deleteByOwner_exact_witness :
    mkExp "e3" "u2" "" 3 ∈
        deleteExpensesByUserId "u1"
          [mkExp "e1" "u1" "" 1, mkExp "e3" "u2" "" 3, mkExp "e2" "u1" "" 2]
      ∧ List.Sublist
          (deleteExpensesByUserId "u1"
            [mkExp "e1" "u1" "" 1, mkExp "e3" "u2" "" 3, mkExp "e2" "u1" "" 2])
          [mkExp "e1" "u1" "" 1, mkExp "e3" "u2" "" 3, mkExp "e2" "u1" "" 2] :=
  ⟨(c4_deleteByOwner_exact "u1"
      [mkExp "e1" "u1" "" 1, mkExp "e3" "u2" "" 3, mkExp "e2" "u1" "" 2] []).2.1
      (mkExp "e3" "u2" "" 3) (by decide) (by decide),
   (c4_deleteByOwner_exact "u1"
      [mkExp "e1" "u1" "" 1, mkExp "e3" "u2" "" 3, mkExp "e2" "u1" "" 2] []).2.2.1⟩

/-- C1: at a concrete quota failure (a snapshot with an image never fits,
the stripped copy fits) the local save effect of the current Firestore-capable
provider (ExpenseContext.tsx lines 69-77) performs no stripped retry — the
previously persisted snapshot survives and the write is dropped — whereas the
lightweight provider variant (UserManagement.tsx lines 902-920) persists the
collection with every image blanked, leaving the in-memory collection intact. -/
theorem c1_current_provider_drops_stripped_retry :
    fitsOnlyStripped [mkExp "e1" "u1" "IMGDATA" 5] = false
      ∧ localSaveEffect fitsOnlyStripped (some []) [mkExp "e1" "u1" "IMGDATA" 5]
          = some []
      ∧ localSaveEffectRetry fitsOnlyStripped (some []) [mkExp "e1" "u1" "IMGDATA" 5]
          = some (stripImages [mkExp "e1" "u1" "IMGDATA" 5])
      ∧ stripImages [mkExp "e1" "u1" "IMGDATA" 5] = [mkExp "e1" "u1" "" 5] := by
  refine ⟨by decide, by decide, by decide, by decide⟩

/-- C8 counterexample: a persisted user snapshot that is valid JSON but not
an array ("42") is not treated as absent by the user repository: the parsed
non-array value is installed as the collection instead of the seed data. -/
theorem c8_users_nonArray_counterexample :
    usersLoadFromLocal parseNonArrayU seedUsers (some "42")
        = UsersState.nonArrayValue
      ∧ usersLoadFromLocal parseNonArrayU seedUsers none
          = UsersState.list seedUsers
      ∧ UsersState.nonArrayValue ≠ UsersState.list seedUsers := by
  refine ⟨by decide, by decide, by decide⟩

/-- C8 amended: initialization never crashes; on a snapshot whose parse
throws, both repositories fall back to the seed data; on a snapshot parsing
to a non-array value, the expense repository falls back to the seed data but
the user repository installs the parsed non-array value as its collection. -/
theorem c8_load_fallback_amended
    (parseE : String → Option (ParsedSnapshot Expense))
    (parseU : String → Option (ParsedSnapshot User))
    (seedE : List Expense) (seedU : List User) (s : String) :
    (parseE s = none → expensesLoadFromLocal parseE seedE (some s) = seedE)
      ∧ (parseE s = some ParsedSnapshot.nonArray →
          expensesLoadFromLocal parseE seedE (some s) = seedE)
      ∧ (parseU s = none →
          usersLoadFromLocal parseU seedU (some s) = UsersState.list seedU)
      ∧ (parseU s = some ParsedSnapshot.nonArray →
          usersLoadFromLocal parseU seedU (some s) = UsersState.nonArrayValue) := by
  refine ⟨?_, ?_, ?_, ?_⟩ <;> intro h <;>
    simp [expensesLoadFromLocal, usersLoadFromLocal, h]

/-- Witness for the amended C8 at concrete parse outcomes. -/
theorem c8_load_fallback_amended_witness :
    (parseFailE "oops" = none
        ∧ expensesLoadFromLocal parseFailE seedExpenses (some "oops") = seedExpenses)
      ∧ (parseNonArrayU "42" = some ParsedSnapshot.nonArray
        ∧ usersLoadFromLocal parseNonArrayU seedUsers (some "42")
            = UsersState.nonArrayValue) :=
  ⟨⟨rfl, (c8_load_fallback_amended parseFailE parseNonArrayU seedExpenses seedUsers
      "oops").1 rfl⟩,
   ⟨rfl, (c8_load_fallback_amended parseFailE parseNonArrayU seedExpenses
      seedUsers "42").2.2.2 rfl⟩⟩

lemma addAll_eq (es l : List Expense) : addAll es l = es.reverse ++ l := by
  induction es generalizing l with
  | nil => rfl
  | cons e es ih =>
    show addAll es (addExpense e l) = (e :: es).reverse ++ l
    rw [ih (addExpense e l)]
    simp [addExpense]

lemma mapOrCrash_eq_map (g : User → Option User) (f : User → User) (l : List User)
    (h : ∀ v ∈ l, g v = some (f v)) : mapOrCrash g l = some (l.map f) := by
  induction l with
  | nil => rfl
  | cons u us ih =>
    unfold mapOrCrash
    rw [h u (List.mem_cons_self u us),
      ih (fun v hv => h v (List.mem_cons_of_mem u hv))]
    rfl

lemma mapOrCrash_forall₂ (g : User → Option User) (l out : List User)
    (h : mapOrCrash g l = some out) :
    List.Forall₂ (fun u v => g u = some v) l out := by
  induction l generalizing out with
  | nil =>
    unfold mapOrCrash at h
    cases h
    exact List.Forall₂.nil
  | cons u us ih =>
    unfold mapOrCrash at h
    cases hg : g u with
    | none => rw [hg] at h; cases h
    | some v =>
      rw [hg] at h
      cases hm : mapOrCrash g us with
      | none => rw [hm] at h; cases h
      | some vs =>
        rw [hm] at h
        cases h
        exact List.Forall₂.cons hg (ih vs hm)

lemma find_id_unique (users : List User) (uid : String) (u : User)
    (hnd : (users.map User.id).Nodup) (hu : u ∈ users) (hid : u.id = uid) :
    users.find? (fun v => v.id == uid) = some u := by
  induction users with
  | nil => cases hu
  | cons w ws ih =>
    rw [List.find?_cons]
    by_cases hw : (w.id == uid) = true
    · rw [hw]
      rcases List.mem_cons.mp hu with rfl | hmem
      · rfl
      · exfalso
        have h1 : u.id ∈ ws.map User.id := List.mem_map_of_mem User.id hmem
        have h2 : w.id ∉ ws.map User.id := (List.nodup_cons.mp (by simpa using hnd)).1
        exact h2 (by rw [show w.id = uid from by simpa using hw, ← hid]; exact h1)
    · have hw2 : (w.id == uid) = false := by simpa using hw
      rw [hw2]
      rcases List.mem_cons.mp hu with rfl | hmem
      · exact absurd (by simpa using hid) hw
      · exact ih (List.nodup_cons.mp (by simpa using hnd)).2 hmem

lemma resolveFrame_self (uid : String) (u : User) : ResolveFrame uid u u :=
  ⟨fun _ => rfl, rfl, rfl, rfl, rfl⟩

/-- C2: newest-creation-first invariant. In local mode, a sequence of create
calls in which every new expense carries a creation timestamp later than all
existing ones keeps the collection, and hence every listByOwner view of it,
in reverse-chronological creation order; in cloud mode, the subscription
handler re-sorts every delivered snapshot newest-creation-first regardless of
delivery order. -/
theorem c2_newest_first_order (st es snapshot : List Expense) (uid : String)
    (hst : SortedDesc st)
    (hes : es.Pairwise (fun a b => a.createdAt < b.createdAt))
    (hgt : ∀ e ∈ es, ∀ x ∈ st, x.createdAt < e.createdAt) :
    SortedDesc (addAll es st)
      ∧ SortedDesc (getExpensesByUser uid (addAll es st))
      ∧ SortedDesc (cloudSnapshotSort snapshot) := by
  have h1 : SortedDesc (addAll es st) := by
    rw [addAll_eq]
    unfold SortedDesc
    rw [List.pairwise_append]
    refine ⟨?_, hst, ?_⟩
    · rw [List.pairwise_reverse]
      exact List.Pairwise.imp (fun h => Nat.le_of_lt h) hes
    · intro a ha b hb
      exact Nat.le_of_lt (hgt a (List.mem_reverse.mp ha) b hb)
  refine ⟨h1, List.Pairwise.sublist (List.filter_sublist _) h1, ?_⟩
  have hs : (snapshot.mergeSort cloudSortLe).Pairwise
      (fun a b => cloudSortLe a b = true) :=
    List.sorted_mergeSort
      (fun a b c hab hbc => by
        simp only [cloudSortLe, decide_eq_true_eq] at hab hbc ⊢
        omega)
      (fun a b => by
        simp only [cloudSortLe, Bool.or_eq_true, decide_eq_true_eq]
        omega)
      snapshot
  exact List.Pairwise.imp (fun h => by simpa [cloudSortLe] using h) hs

/-- Witness for C2: two creations with increasing timestamps for owner u1,
and a cloud snapshot delivered oldest-first, all end up newest-first. -/
theorem c2_newest_first_order_witness :
    SortedDesc (addAll [mkExp "e1" "u1" "" 1, mkExp "e2" "u1" "" 2] [])
      ∧ SortedDesc (getExpensesByUser "u1"
          (addAll [mkExp "e1" "u1" "" 1, mkExp "e2" "u1" "" 2] []))
      ∧ SortedDesc (cloudSnapshotSort [mkExp "e1" "u1" "" 1, mkExp "e2" "u1" "" 2])
      ∧ getExpensesByUser "u1" (addAll [mkExp "e1" "u1" "" 1, mkExp "e2" "u1" "" 2] [])
          = [mkExp "e2" "u1" "" 2, mkExp "e1" "u1" "" 1] := by
  have h := c2_newest_first_order [] [mkExp "e1" "u1" "" 1, mkExp "e2" "u1" "" 2]
    [mkExp "e1" "u1" "" 1, mkExp "e2" "u1" "" 2] "u1"
    List.Pairwise.nil (by decide) (by simp)
  exact ⟨h.1, h.2.1, h.2.2, by decide⟩

/-- C3: the pending profile update workflow. With unique user identifiers,
approving copies the pending name and email into the live fields and clears
the pending sub-record, rejecting clears the pending sub-record and leaves
the live fields alone, resolving with no pending update anywhere is a no-op,
and a second request while one is pending overwrites rather than queues. -/
theorem c3_profile_update_workflow (users : List User) (uid : String) (u : User)
    (p : PendingUpdate) (nm em dt nm2 em2 dt2 : String)
    (hnd : (users.map User.id).Nodup) :
    (u ∈ users → u.id = uid → u.pendingUpdates = some p →
        resolveProfileUpdate uid true users
            = some (users.map (fun v => if v.id == uid then
                { v with name := p.name, email := p.email, pendingUpdates := none }
              else v))
          ∧ resolveProfileUpdate uid false users
              = some (users.map (fun v => if v.id == uid then
                  { v with pendingUpdates := none } else v)))
      ∧ ((∀ v ∈ users, v.id = uid → v.pendingUpdates = none) →
          resolveProfileUpdate uid true users = some users
            ∧ resolveProfileUpdate uid false users = some users)
      ∧ requestProfileUpdate uid nm2 em2 dt2 (requestProfileUpdate uid nm em dt users)
          = requestProfileUpdate uid nm2 em2 dt2 users := by
  refine ⟨?_, ?_, ?_⟩
  · intro hu hid hp
    have hfind : users.find? (fun v => v.id == uid) = some u :=
      find_id_unique users uid u hnd hu hid
    constructor <;>
      · simp only [resolveProfileUpdate, hfind, hp]
        apply mapOrCrash_eq_map
        intro v hv
        by_cases hvid : (v.id == uid) = true
        · have hveq : v = u := List.inj_on_of_nodup_map hnd hv hu
            (by rw [show v.id = uid from by simpa using hvid, hid])
          subst hveq
          simp [hvid, resolveOne, hp]
        · simp [hvid]
  · intro hnone
    cases hf : users.find? (fun v => v.id == uid) with
    | none =>
      constructor <;> simp [resolveProfileUpdate, hf]
    | some u0 =>
      have hu0 : u0 ∈ users := List.mem_of_find?_eq_some hf
      have hid0 : u0.id = uid := by simpa using List.find?_some hf
      have hp0 : u0.pendingUpdates = none := hnone u0 hu0 hid0
      constructor <;> simp [resolveProfileUpdate, hf, hp0]
  · unfold requestProfileUpdate
    rw [List.map_map]
    apply List.map_congr_left
    intro v _
    by_cases h : v.id = uid <;> simp [h]

/-- Witness for C3 at a concrete collection: user u1 has a pending update to
name New / email new@x.com; approval copies it, rejection drops it, the
untouched u2 and a double request behave as claimed. -/
theorem c3_profile_update_workflow_witness :
    resolveProfileUpdate "u1" true
        [mkUsr "u1" "Old" "old@x.com"
            (some { name := "New", email := "new@x.com", date := "t1" }),
          mkUsr "u2" "Bob" "bob@x.com" none]
        = some [mkUsr "u1" "New" "new@x.com" none, mkUsr "u2" "Bob" "bob@x.com" none]
      ∧ resolveProfileUpdate "u1" false
          [mkUsr "u1" "Old" "old@x.com"
              (some { name := "New", email := "new@x.com", date := "t1" }),
            mkUsr "u2" "Bob" "bob@x.com" none]
          = some [mkUsr "u1" "Old" "old@x.com" none, mkUsr "u2" "Bob" "bob@x.com" none]
      ∧ requestProfileUpdate "u1" "n2" "e2" "d2"
          (requestProfileUpdate "u1" "n1" "e1" "d1"
            [mkUsr "u1" "Old" "old@x.com" none])
          = requestProfileUpdate "u1" "n2" "e2" "d2"
              [mkUsr "u1" "Old" "old@x.com" none] := by
  have h1 := c3_profile_update_workflow
    [mkUsr "u1" "Old" "old@x.com"
        (some { name := "New", email := "new@x.com", date := "t1" }),
      mkUsr "u2" "Bob" "bob@x.com" none]
    "u1"
    (mkUsr "u1" "Old" "old@x.com"
      (some { name := "New", email := "new@x.com", date := "t1" }))
    { name := "New", email := "new@x.com", date := "t1" }
    "n1" "e1" "d1" "n2" "e2" "d2" (by decide)
  have h2 := c3_profile_update_workflow
    [mkUsr "u1" "Old" "old@x.com" none] "u1"
    (mkUsr "u1" "Old" "old@x.com" none)
    { name := "New", email := "new@x.com", date := "t1" }
    "n1" "e1" "d1" "n2" "e2" "d2" (by decide)
  refine ⟨?_, ?_, h2.2.2⟩
  · exact ((h1.1 (by decide) rfl rfl).1).trans (by decide)
  · exact ((h1.1 (by decide) rfl rfl).2).trans (by decide)

/-- C7: signup aborts with no state change (and no exception — the embedding
is total) when some existing account already has the email, compared
case-insensitively; otherwise it appends exactly one new Sales-role account
with the deterministically generated avatar URL and establishes a session
for it. -/
theorem c7_signup_duplicate_email (now : Nat) (name email password : String)
    (st : AuthState) :
    ((∃ u ∈ st.allUsers, u.email.toLower = email.toLower) →
        signup now name email password st = st)
      ∧ ((∀ u ∈ st.allUsers, u.email.toLower ≠ email.toLower) →
          (signup now name email password st).allUsers
              = st.allUsers ++ [mkSignupUser now name email password]
            ∧ (signup now name email password st).sessionUser
                = some (mkSignupUser now name email password)
            ∧ (mkSignupUser now name email password).role = UserRole.sales
            ∧ (mkSignupUser now name email password).avatar = avatarFor name
            ∧ (mkSignupUser now name email password).name = name
            ∧ (mkSignupUser now name email password).email = email
            ∧ (mkSignupUser now name email password).password = password) := by
  constructor
  · rintro ⟨u, hu, he⟩
    unfold signup
    rw [if_pos (List.any_eq_true.mpr ⟨u, hu, by simpa using he⟩)]
  · intro h
    have hfalse : ¬(st.allUsers.any (fun u => u.email.toLower == email.toLower) = true) := by
      rw [List.any_eq_true]
      rintro ⟨u, hu, he⟩
      exact h u hu (by simpa using he)
    unfold signup
    rw [if_neg hfalse]
    exact ⟨rfl, rfl, rfl, rfl, rfl, rfl, rfl⟩

/-- Witness for C7: the spec scenario — after Alice signs up with
alice@x.com, the signup of Bob with the same email leaves the state unchanged. -/
theorem c7_signup_duplicate_email_witness :
    signup 2 "Bob" "alice@x.com" "pw2"
        (signup 1 "Alice" "alice@x.com" "pw1" { allUsers := [], sessionUser := none })
      = signup 1 "Alice" "alice@x.com" "pw1" { allUsers := [], sessionUser := none } :=
  (c7_signup_duplicate_email 2 "Bob" "alice@x.com" "pw2"
      (signup 1 "Alice" "alice@x.com" "pw1" { allUsers := [], sessionUser := none })).1
    ⟨mkSignupUser 1 "Alice" "alice@x.com" "pw1",
     by exact List.mem_singleton_self _, rfl⟩

/-- C9: the admin delete flow issues the expense cascade before the user
delete, so at every observable state of the composite delete an expense
owned by the deleted user can only be present while its owner still exists,
and the final state contains neither the user nor any of its expenses. -/
theorem c9_cascade_before_user_delete (uid : String) (st : AppState)
    (hex : ∃ u ∈ st.users, u.id = uid) :
    (∀ s ∈ confirmDeleteTrace uid st, ∀ e ∈ s.expenses, e.userId = uid →
        ∃ u ∈ s.users, u.id = uid)
      ∧ (∀ e ∈ (confirmDelete uid st).expenses, e.userId ≠ uid)
      ∧ (∀ u ∈ (confirmDelete uid st).users, u.id ≠ uid) := by
  have hclean : ∀ e ∈ deleteExpensesByUserId uid st.expenses, e.userId ≠ uid := by
    intro e he
    have := (List.mem_filter.mp he).2
    simpa using this
  refine ⟨?_, ?_, ?_⟩
  · intro s hs e he heid
    rcases show s = st ∨ s = cascadeState uid st ∨ s = confirmDelete uid st by
        simpa [confirmDeleteTrace] using hs with rfl | rfl | rfl
    · exact hex
    · exact hex
    · exact absurd heid (hclean e he)
  · exact hclean
  · intro u hu
    have := (List.mem_filter.mp hu).2
    simpa using this

/-- Witness for C9 at a concrete two-user state: after deleting u1,
the surviving user u2 is not u1 (instantiating the final-state property). -/
theorem c9_cascade_before_user_delete_witness :
    (mkUsr "u2" "Bob" "bob@x.com" none).id ≠ "u1" :=
  (c9_cascade_before_user_delete "u1"
      { users := [mkUsr "u1" "Alice" "alice@x.com" none,
          mkUsr "u2" "Bob" "bob@x.com" none],
        expenses := [mkExp "e1" "u1" "" 1, mkExp "e2" "u2" "" 2] }
      ⟨mkUsr "u1" "Alice" "alice@x.com" none, by decide, rfl⟩).2.2
    (mkUsr "u2" "Bob" "bob@x.com" none) (by decide)

/-- C10: resolveProfileUpdate modifies at most the name, email and pending
fields of users with the target identifier — identifier, password, role and
avatar are unchanged — and every user with a different identifier is entirely
unchanged; this holds for both the Firestore-capable local branch and the
local-only variant. -/
theorem c10_resolve_frame (users : List User) (uid : String) (approve : Bool)
    (out : List User) (h : resolveProfileUpdate uid approve users = some out) :
    List.Forall₂ (ResolveFrame uid) users out
      ∧ List.Forall₂ (ResolveFrame uid)
          users (resolveProfileUpdateLocalOnly uid approve users) := by
  constructor
  · unfold resolveProfileUpdate at h
    cases hf : users.find? (fun v => v.id == uid) with
    | none =>
      simp only [hf] at h
      cases h
      exact (List.forall₂_same).mpr (fun u _ => resolveFrame_self uid u)
    | some u0 =>
      simp only [hf] at h
      cases hp : u0.pendingUpdates with
      | none =>
        simp only [hp] at h
        cases h
        exact (List.forall₂_same).mpr (fun u _ => resolveFrame_self uid u)
      | some p =>
        simp only [hp] at h
        refine List.Forall₂.imp ?_ (mapOrCrash_forall₂ _ users out h)
        intro u v hg
        by_cases hid : (u.id == uid) = true
        · simp only [hid, if_true] at hg
          unfold resolveOne at hg
          cases happ : approve with
          | true =>
            simp only [happ, if_true] at hg
            cases hpu : u.pendingUpdates with
            | none =>
              simp only [hpu] at hg
              exact Option.noConfusion hg
            | some q =>
              simp only [hpu] at hg
              cases hg
              exact ⟨fun hne => absurd (by simpa using hid) hne, rfl, rfl, rfl, rfl⟩
          | false =>
            simp only [happ, if_false] at hg
            cases hg
            exact ⟨fun hne => absurd (by simpa using hid) hne, rfl, rfl, rfl, rfl⟩
        · simp only [hid, if_false] at hg
          cases hg
          exact resolveFrame_self uid u
  · clear h
    unfold resolveProfileUpdateLocalOnly
    induction users with
    | nil => exact List.Forall₂.nil
    | cons u us ih =>
      refine List.Forall₂.cons ?_ ih
      by_cases hid : (u.id == uid) = true
      · show ResolveFrame uid u
          (if u.id == uid then
            match u.pendingUpdates with
            | some p =>
              if approve then { u with name := p.name, email := p.email, pendingUpdates := none }
              else { u with pendingUpdates := none }
            | none => u
          else u)
        rw [if_pos hid]
        cases u.pendingUpdates with
        | none => exact resolveFrame_self uid u
        | some p =>
          cases approve <;>
            exact ⟨fun hne => absurd (by simpa using hid) hne, rfl, rfl, rfl, rfl⟩
      · show ResolveFrame uid u
          (if u.id == uid then
            match u.pendingUpdates with
            | some p =>
              if approve then { u with name := p.name, email := p.email, pendingUpdates := none }
              else { u with pendingUpdates := none }
            | none => u
          else u)
        rw [if_neg hid]
        exact resolveFrame_self uid u

/-- Witness for C10 at a concrete collection: approving the pending update
of u1 keeps every frame field, and u2 is untouched, in both variants. -/
theorem c10_resolve_frame_witness :
    List.Forall₂ (ResolveFrame "u1")
        [mkUsr "u1" "Old" "old@x.com"
            (some { name := "New", email := "new@x.com", date := "t1" }),
          mkUsr "u2" "Bob" "bob@x.com" none]
        [mkUsr "u1" "New" "new@x.com" none, mkUsr "u2" "Bob" "bob@x.com" none]
      ∧ List.Forall₂ (ResolveFrame "u1")
          [mkUsr "u1" "Old" "old@x.com"
              (some { name := "New", email := "new@x.com", date := "t1" }),
            mkUsr "u2" "Bob" "bob@x.com" none]
          (resolveProfileUpdateLocalOnly "u1" true
            [mkUsr "u1" "Old" "old@x.com"
                (some { name := "New", email := "new@x.com", date := "t1" }),
              mkUsr "u2" "Bob" "bob@x.com" none]) :=
  c10_resolve_frame
    [mkUsr "u1" "Old" "old@x.com"
        (some { name := "New", email := "new@x.com", date := "t1" }),
      mkUsr "u2" "Bob" "bob@x.com" none]
    "u1" true
    [mkUsr "u1" "New" "new@x.com" none, mkUsr "u2" "Bob" "bob@x.com" none]
    (by decide)

end TrackExpense
